import Mathlib

/-!
Shallow embedding of the PG_Ninja class (src/index.ts) and proofs about its
transaction coordinator and concurrent batch runner.

The database driver is modelled as an oracle: for the transaction method it
maps the position in the statement stream and the statement itself to either
a thrown error or a query result; for the batch runner it maps the item index
to that item's outcome (the single shared connection serializes completions
in submission order).  Promise settlement is explicit: the first resolve or
reject wins, and a run whose error handler itself throws never settles.
Console output of the internal send_log helper is collected as a list of
message/color pairs, emitted only when the log flag is set.
-/

namespace PGNinja

/-- Model of a JavaScript Error value, identified by its message. -/
structure Err where
  msg : String
  deriving DecidableEq

/-- Model of a pg QueryResult as read by the core: the command tag (checked
against undefined at src/index.ts line 67) and the rows array (checked for
absence or emptiness at line 113).  Fields the core never reads are omitted. -/
structure QRes (ρ : Type) where
  command : Option String
  rows : Option (List ρ)
  deriving DecidableEq

/-- Colors accepted by the send_log helper (src/index.ts lines 16-23). -/
inductive Color where
  | white
  | green
  | yellow
  | red
  | blue
  deriving DecidableEq

/-- Embedding of send_log (src/index.ts lines 16-31): when the log flag is
set it emits one timestamped console line, otherwise nothing.  The timestamp
is not modelled; a console line is the message together with its color. -/
def send_log (log : Bool) (msg : String) (color : Color) : List (String × Color) :=
  if log then [(msg, color)] else []

/-- Statements sent over the single connection by the transaction method:
the explicit BEGIN, COMMIT and ROLLBACK commands and the per-step queries
with their (possibly undefined) parameter payload. -/
inductive Stmt (π : Type) where
  | begin
  | commit
  | rollback
  | query (text : String) (body : Option (List π))
  deriving DecidableEq

/-- How the promise returned by the transaction method settles: resolved
with the last stored result (undefined when no query ran), rejected with an
error, or never settled (the error handler itself threw). -/
inductive TxSettle (ρ : Type) where
  | resolved (r : Option (QRes ρ))
  | rejected (e : Err)
  | hung
  deriving DecidableEq

/-- Oracle for the transaction method: outcome of the n-th statement issued
on the connection. -/
abbrev TxDB (ρ π : Type) := Nat → Stmt π → Except Err (QRes ρ)

/-- Observable outcome of one transaction call: the statements issued on the
connection in order, the settlement of the returned promise, the error that
reached the catch handler (if any), and the console output. -/
structure TxRun (ρ π : Type) where
  trace : List (Stmt π)
  settle : TxSettle ρ
  caught : Option Err
  console : List (String × Color)
  deriving DecidableEq

/-- The error the transaction method rejects with on a failed step
(src/index.ts line 70). -/
def txFailedErr : Err := ⟨"Transaction failed"⟩

/-- Did the driver accept this statement (no exception thrown)? -/
def dbOk (r : Except Err (QRes ρ)) : Bool :=
  match r with
  | .ok _ => true
  | .error _ => false

/-- Embedding of the catch handler of the transaction method (src/index.ts
lines 76-80): log the fatal error, issue ROLLBACK, then reject with the
caught error.  If the promise is already settled the earlier settlement
stands; if this ROLLBACK itself throws, the reject line is never reached and
an unsettled promise can never settle. -/
def txCatch (db : TxDB ρ π) (k : Nat) (e : Err) (settled : Option (TxSettle ρ))
    (log : Bool) (nq : Nat) : TxRun ρ π :=
  let console := send_log log
    ("fatal error with transaction of " ++ toString nq ++ " queries: " ++ e.msg) Color.red
  match db k Stmt.rollback with
  | .error _ => ⟨[Stmt.rollback], settled.getD TxSettle.hung, some e, console⟩
  | .ok _ => ⟨[Stmt.rollback], settled.getD (TxSettle.rejected e), some e, console⟩

/-- Embedding of the step loop and the COMMIT epilogue of the transaction
method (src/index.ts lines 65-75).  Arguments: remaining step queries, the
count k of statements already issued (index into the oracle), the current
settlement of the promise (a failed step rejects without stopping the loop),
and the last stored query result r.  Each step goes through the query method,
which logs one line per attempt (lines 43 and 46); a step whose result has an
absent command tag logs the failure and issues ROLLBACK (lines 68-69) before
rejecting (line 70); after the loop COMMIT is issued and the promise is
resolved with r (lines 73-75). -/
def txLoop (db : TxDB ρ π) (log : Bool) (nq : Nat) :
    List (String × Option (List π)) → Nat → Option (TxSettle ρ) → Option (QRes ρ) → TxRun ρ π
  | [], k, settled, r =>
    match db k Stmt.commit with
    | .error e =>
      let c := txCatch db (k+1) e settled log nq
      ⟨Stmt.commit :: c.trace, c.settle, c.caught, c.console⟩
    | .ok _ =>
      ⟨[Stmt.commit], settled.getD (TxSettle.resolved r), none,
        send_log log ("success transaction of " ++ toString nq ++ " queries") Color.blue⟩
  | (q, b) :: rest, k, settled, _ =>
    match db k (Stmt.query q b) with
    | .error e =>
      let c := txCatch db (k+1) e settled log nq
      ⟨Stmt.query q b :: c.trace, c.settle, c.caught,
        send_log log ("error with query: " ++ q) Color.yellow ++ c.console⟩
    | .ok res =>
      if res.command.isNone then
        match db (k+1) Stmt.rollback with
        | .error e2 =>
          let c := txCatch db (k+2) e2 settled log nq
          ⟨Stmt.query q b :: Stmt.rollback :: c.trace, c.settle, c.caught,
            send_log log ("success query: " ++ q) Color.blue ++
            send_log log ("failed transaction of " ++ toString nq ++ " queries") Color.yellow ++
            c.console⟩
        | .ok _ =>
          let rest' := txLoop db log nq rest (k+2)
            (settled.orElse fun _ => some (TxSettle.rejected txFailedErr)) (some res)
          ⟨Stmt.query q b :: Stmt.rollback :: rest'.trace, rest'.settle, rest'.caught,
            send_log log ("success query: " ++ q) Color.blue ++
            send_log log ("failed transaction of " ++ toString nq ++ " queries") Color.yellow ++
            rest'.console⟩
      else
        let rest' := txLoop db log nq rest (k+1) settled (some res)
        ⟨Stmt.query q b :: rest'.trace, rest'.settle, rest'.caught,
          send_log log ("success query: " ++ q) Color.blue ++ rest'.console⟩

/-- Embedding of queries.map((x, i) => [x, bodies[i]]) (src/index.ts line
61): pair each query text with the body at its index, undefined when the
bodies array is shorter. -/
def txQueryArgs (bodies : List (List π)) : List String → Nat → List (String × Option (List π))
  | [], _ => []
  | q :: qs, i => (q, bodies.get? i) :: txQueryArgs bodies qs (i+1)

/-- Embedding of the transaction method (src/index.ts lines 58-82): issue
BEGIN, run the step loop, and route any thrown error through the catch
handler. -/
def transaction (db : TxDB ρ π) (log : Bool) (queries : List String)
    (bodies : List (List π)) : TxRun ρ π :=
  let qas := txQueryArgs bodies queries 0
  match db 0 Stmt.begin with
  | .error e =>
    let c := txCatch db 1 e none log queries.length
    ⟨Stmt.begin :: c.trace, c.settle, c.caught, c.console⟩
  | .ok _ =>
    let r := txLoop db log queries.length qas 1 none none
    ⟨Stmt.begin :: r.trace, r.settle, r.caught, r.console⟩

/-- Embedding of the query method (src/index.ts lines 39-56) for a single
call: the driver outcome is passed in, the method rejects or resolves with
it unchanged and logs one line per attempt. -/
def query (log : Bool) (q : String) (outcome : Except Err (QRes ρ)) :
    Except Err (QRes ρ) × List (String × Color) :=
  match outcome with
  | .error e => (.error e, send_log log ("error with query: " ++ q) Color.yellow)
  | .ok res => (.ok res, send_log log ("success query: " ++ q) Color.blue)

/-- Model of the JavaScript values that can be passed as trailing arguments
to the multiquery method: undefined, a boolean, or an array of per-query
parameter arrays. -/
inductive JVal (π : Type) where
  | undefined
  | bool (b : Bool)
  | params (xs : List (List π))
  deriving DecidableEq

/-- JavaScript truthiness of such a value; arrays are always truthy. -/
def truthy : JVal π → Bool
  | JVal.undefined => false
  | JVal.bool b => b
  | JVal.params _ => true

/-- JavaScript indexing v[i] on such a value: an element of a params array
(undefined out of range), undefined on a boolean. -/
def jIndex : JVal π → Nat → Option (List π)
  | JVal.params xs, i => xs.get? i
  | JVal.undefined, _ => none
  | JVal.bool _, _ => none

/-- Embedding of qrs.map((x, i) => [x[0], params[i]]) (src/index.ts line
97, truthy-params branch): replace each submitted parameter list by the
i-th index of the params argument. -/
def substParams (ps : JVal π) : List (String × List π) → Nat → List (String × Option (List π))
  | [], _ => []
  | x :: xs, i => (x.1, jIndex ps i) :: substParams ps xs (i+1)

/-- Embedding of src/index.ts line 97: the queries actually dispatched by
the batch runner, with parameters overridden from the first trailing
argument when it is truthy. -/
def effectiveQueryArgs (qrs : List (String × List π)) (ps : JVal π) :
    List (String × Option (List π)) :=
  if truthy ps then substParams ps qrs 0
  else qrs.map (fun x => (x.1, some x.2))

/-- Embedding of the zero-row check at src/index.ts line 113
(!res.rows || res.rows.length === 0). -/
def rowsEmpty (r : QRes ρ) : Bool :=
  match r.rows with
  | none => true
  | some l => l.isEmpty

/-- The error recorded for a zero-row item (src/index.ts line 115). -/
def noRowsErr : Err := ⟨"Query returned no rows"⟩

/-- Oracle for the batch runner: outcome of the item at a given index. -/
abbrev ItemDB (ρ : Type) := Nat → Except Err (QRes ρ)

/-- Accumulator state of the batch runner once every item has settled
(the mutable fields of resp touched by the per-item handlers,
src/index.ts lines 110-125). -/
structure ItemAcc (ρ π : Type) where
  completed : Nat
  success_query_list : List (Nat × List ρ)
  failed_query_list : List (Nat × (String × Option (List π)))
  error_list : List (Nat × Err)
  success : Bool
  deriving DecidableEq

/-- Embedding of the per-item handlers of the batch runner (src/index.ts
lines 110-125), folded in submission order (the single shared connection
serializes completions): a thrown item error records the query and the
error and clears the success flag; a zero-row result records the query and
the no-rows error without touching the success flag; otherwise the
completed counter is bumped and, when the save flag is set, the rows are
retained under the item index.  Each item also produces the one log line of
the underlying query method. -/
def runItems (db : ItemDB ρ) (saveSuccess log : Bool) :
    List (String × Option (List π)) → Nat → ItemAcc ρ π × List (String × Color)
  | [], _ => (⟨0, [], [], [], true⟩, [])
  | qa :: rest, i =>
    let acc := runItems db saveSuccess log rest (i+1)
    match db i with
    | .error e =>
      (⟨acc.1.completed, acc.1.success_query_list, (i, qa) :: acc.1.failed_query_list,
        (i, e) :: acc.1.error_list, false⟩,
       send_log log ("error with query: " ++ qa.1) Color.yellow ++ acc.2)
    | .ok res =>
      if rowsEmpty res then
        (⟨acc.1.completed, acc.1.success_query_list, (i, qa) :: acc.1.failed_query_list,
          (i, noRowsErr) :: acc.1.error_list, acc.1.success⟩,
         send_log log ("success query: " ++ qa.1) Color.blue ++ acc.2)
      else
        (⟨acc.1.completed + 1,
          (if saveSuccess then [(i, res.rows.getD [])] else []) ++ acc.1.success_query_list,
          acc.1.failed_query_list, acc.1.error_list, acc.1.success⟩,
         send_log log ("success query: " ++ qa.1) Color.blue ++ acc.2)

/-- The resp object of the multiquery method as resolved to the caller
(src/index.ts lines 99-108). -/
structure BatchReport (ρ π : Type) where
  completed : Nat
  completed_of : Nat
  success_query_list : List (Nat × List ρ)
  failed_query_list : List (Nat × (String × Option (List π)))
  error_list : List (Nat × Err)
  fatal_error : Option Err
  operation_time : Nat
  success : Bool
  deriving DecidableEq

/-- How the promise returned by the multiquery method settles. -/
inductive MSettle (ρ π : Type) where
  | resolved (rep : BatchReport ρ π)
  | rejected (e : Err)
  deriving DecidableEq

/-- Embedding of the multiquery method (src/index.ts lines 84-141).  The
first trailing argument is read as the params override (line 94), the last
as the save-success flag (line 95); all items are dispatched and joined;
elapsed is the measured wall-clock duration stored into operation_time
(line 131).  An exception thrown in the orchestration epilogue itself is
modelled by the orchFault input and lands in the catch block (lines
134-139), which stores it as fatal_error, clears the success flag, and
still resolves. -/
def multiquery (db : ItemDB ρ) (log : Bool) (qrs : List (String × List π))
    (args : List (JVal π)) (elapsed : Nat) (orchFault : Option Err) :
    MSettle ρ π × List (String × Color) :=
  let ps := args.head?.getD JVal.undefined
  let saveSuccess := truthy (args.getLast?.getD JVal.undefined)
  let queryArgs := effectiveQueryArgs qrs ps
  let r := runItems db saveSuccess log queryArgs 0
  let base : BatchReport ρ π :=
    ⟨r.1.completed, qrs.length, r.1.success_query_list, r.1.failed_query_list,
     r.1.error_list, none, elapsed, r.1.success⟩
  match orchFault with
  | none =>
    (MSettle.resolved base,
     r.2 ++ send_log log
       ("new " ++ toString r.1.completed ++ "/" ++ toString qrs.length ++ " multi-query")
       Color.white)
  | some e =>
    (MSettle.resolved { base with fatal_error := some e, success := false },
     r.2 ++ send_log log
       ("fatal error of " ++ toString qrs.length ++ " queries multi-query: " ++ e.msg)
       Color.red)

/-- Spec helper: no item among the given ones threw a database error
(the item list starts at index i). -/
def itemsNoThrow (db : ItemDB ρ) : List α → Nat → Bool
  | [], _ => true
  | _ :: rest, i => dbOk (db i) && itemsNoThrow db rest (i+1)

/-- Spec helper: the item at index i executed without error and produced at
least one row, which is what bumps the completed counter. -/
def itemCompleted (db : ItemDB ρ) (i : Nat) : Bool :=
  match db i with
  | .ok res => !rowsEmpty res
  | .error _ => false

/-- Spec helper: how many of the given items complete (the item list starts
at index i). -/
def completedCount (db : ItemDB ρ) : List α → Nat → Nat
  | [], _ => 0
  | _ :: rest, i => (if itemCompleted db i then 1 else 0) + completedCount db rest (i+1)

theorem substParams_length (ps : JVal π) (qrs : List (String × List π)) (i : Nat) :
    (substParams ps qrs i).length = qrs.length := by
  induction qrs generalizing i with
  | nil => rfl
  | cons x xs ih => simp [substParams, ih]

theorem effectiveQueryArgs_length (qrs : List (String × List π)) (ps : JVal π) :
    (effectiveQueryArgs qrs ps).length = qrs.length := by
  unfold effectiveQueryArgs
  split
  · exact substParams_length ps qrs 0
  · simp

theorem runItems_fst_log_irrel (db : ItemDB ρ) (s l l' : Bool)
    (qas : List (String × Option (List π))) (i : Nat) :
    (runItems db s l qas i).1 = (runItems db s l' qas i).1 := by
  induction qas generalizing i with
  | nil => rfl
  | cons qa rest ih =>
    simp only [runItems]
    cases db i with
    | error e => simp [ih (i+1)]
    | ok res =>
      by_cases hre : rowsEmpty res <;> simp [hre, ih (i+1)]

theorem runItems_console_nolog (db : ItemDB ρ) (s : Bool)
    (qas : List (String × Option (List π))) (i : Nat) :
    (runItems db s false qas i).2 = [] := by
  induction qas generalizing i with
  | nil => rfl
  | cons qa rest ih =>
    simp only [runItems]
    cases db i with
    | error e => simp [send_log, ih (i+1)]
    | ok res =>
      by_cases hre : rowsEmpty res <;> simp [hre, send_log, ih (i+1)]

theorem runItems_success_eq (db : ItemDB ρ) (s l : Bool)
    (qas : List (String × Option (List π))) (i : Nat) :
    (runItems db s l qas i).1.success = itemsNoThrow db qas i := by
  induction qas generalizing i with
  | nil => rfl
  | cons qa rest ih =>
    simp only [runItems, itemsNoThrow]
    cases db i with
    | error e => simp [dbOk]
    | ok res =>
      by_cases hre : rowsEmpty res <;> simp [hre, dbOk, ih (i+1)]

theorem runItems_completed_eq (db : ItemDB ρ) (s l : Bool)
    (qas : List (String × Option (List π))) (i : Nat) :
    (runItems db s l qas i).1.completed = completedCount db qas i := by
  induction qas generalizing i with
  | nil => rfl
  | cons qa rest ih =>
    simp only [runItems, completedCount]
    split
    next e heq => simp [itemCompleted, heq, ih (i+1)]
    next res heq =>
      by_cases hre : rowsEmpty res
      · simp [itemCompleted, heq, hre, ih (i+1)]
      · simp only [Bool.not_eq_true] at hre
        simp [itemCompleted, heq, hre, ih (i+1)]
        omega

theorem runItems_count (db : ItemDB ρ) (s l : Bool)
    (qas : List (String × Option (List π))) (i : Nat) :
    (runItems db s l qas i).1.completed + (runItems db s l qas i).1.failed_query_list.length
      = qas.length := by
  induction qas generalizing i with
  | nil => rfl
  | cons qa rest ih =>
    simp only [runItems]
    split
    next e heq =>
      have := ih (i+1)
      simp only [List.length_cons]
      omega
    next res heq =>
      by_cases hre : rowsEmpty res
      · have := ih (i+1)
        simp [hre]
        omega
      · simp only [Bool.not_eq_true] at hre
        have := ih (i+1)
        simp [hre]
        omega

theorem runItems_failed_keys_ge (db : ItemDB ρ) (s l : Bool)
    (qas : List (String × Option (List π))) (i : Nat) :
    ∀ p ∈ (runItems db s l qas i).1.failed_query_list, i ≤ p.1 := by
  induction qas generalizing i with
  | nil => intro p hp; simp [runItems] at hp
  | cons qa rest ih =>
    intro p hp
    simp only [runItems] at hp
    cases hdb : db i with
    | error e =>
      rw [hdb] at hp
      simp only [List.mem_cons] at hp
      rcases hp with rfl | hp
      · exact Nat.le_refl i
      · exact Nat.le_of_succ_le (ih (i+1) p hp)
    | ok res =>
      rw [hdb] at hp
      by_cases hre : rowsEmpty res
      · simp only [hre, if_true, List.mem_cons] at hp
        rcases hp with rfl | hp
        · exact Nat.le_refl i
        · exact Nat.le_of_succ_le (ih (i+1) p hp)
      · simp only [hre, if_false] at hp
        exact Nat.le_of_succ_le (ih (i+1) p hp)

theorem runItems_failed_keys_nodup (db : ItemDB ρ) (s l : Bool)
    (qas : List (String × Option (List π))) (i : Nat) :
    ((runItems db s l qas i).1.failed_query_list.map Prod.fst).Nodup := by
  induction qas generalizing i with
  | nil => simp [runItems]
  | cons qa rest ih =>
    simp only [runItems]
    split
    next e heq =>
      simp only [List.map_cons, List.nodup_cons]
      refine ⟨?_, ih (i+1)⟩
      intro hmem
      rcases List.mem_map.mp hmem with ⟨p, hp, hfst⟩
      have := runItems_failed_keys_ge db s l rest (i+1) p hp
      omega
    next res heq =>
      by_cases hre : rowsEmpty res
      · simp only [hre, if_true, List.map_cons, List.nodup_cons]
        refine ⟨?_, ih (i+1)⟩
        intro hmem
        rcases List.mem_map.mp hmem with ⟨p, hp, hfst⟩
        have := runItems_failed_keys_ge db s l rest (i+1) p hp
        omega
      · simp only [Bool.not_eq_true] at hre
        simp only [hre, Bool.false_eq_true, if_false]
        exact ih (i+1)

theorem runItems_lookup_zeroRows (db : ItemDB ρ) (s l : Bool)
    (qas : List (String × Option (List π))) :
    ∀ (i j : Nat) (qa : String × Option (List π)) (res : QRes ρ),
      qas.get? j = some qa → db (i+j) = Except.ok res → rowsEmpty res = true →
      (runItems db s l qas i).1.failed_query_list.lookup (i+j) = some qa ∧
      (runItems db s l qas i).1.error_list.lookup (i+j) = some noRowsErr := by
  induction qas with
  | nil => intro i j qa res hq; simp at hq
  | cons qa0 rest ih =>
    intro i j qa res hq hdb hre
    cases j with
    | zero =>
      simp only [List.get?] at hq
      injection hq with hq
      subst hq
      rw [Nat.add_zero] at hdb ⊢
      simp only [runItems]
      split
      next e heq => rw [heq] at hdb; cases hdb
      next res0 heq =>
        rw [heq] at hdb
        injection hdb with hdb
        subst hdb
        simp [hre, List.lookup]
    | succ j' =>
      simp only [List.get?] at hq
      have hdb' : db ((i+1) + j') = Except.ok res := by
        rw [show (i+1) + j' = i + (j'+1) by omega]
        exact hdb
      have IH := ih (i+1) j' qa res hq hdb' hre
      have hkey : ((i + (j'+1) : Nat) == i) = false := by
        have : (i + (j'+1)) ≠ i := by omega
        exact beq_eq_false_iff_ne.mpr this
      have hidx : (i+1) + j' = i + (j'+1) := by omega
      rw [hidx] at IH
      simp only [runItems]
      split
      next e heq =>
        simp only [List.lookup, hkey]
        exact IH
      next res0 heq =>
        by_cases hre0 : rowsEmpty res0
        · simp only [hre0, if_true, List.lookup, hkey]
          exact IH
        · simp only [Bool.not_eq_true] at hre0
          simp only [hre0, Bool.false_eq_true, if_false]
          exact IH

theorem runItems_lookup_saved (db : ItemDB ρ) (l : Bool)
    (qas : List (String × Option (List π))) :
    ∀ (i j : Nat) (qa : String × Option (List π)) (res : QRes ρ),
      qas.get? j = some qa → db (i+j) = Except.ok res → rowsEmpty res = false →
      (runItems db true l qas i).1.success_query_list.lookup (i+j)
        = some (res.rows.getD []) := by
  induction qas with
  | nil => intro i j qa res hq; simp at hq
  | cons qa0 rest ih =>
    intro i j qa res hq hdb hre
    cases j with
    | zero =>
      rw [Nat.add_zero] at hdb ⊢
      simp only [runItems]
      split
      next e heq => rw [heq] at hdb; cases hdb
      next res0 heq =>
        rw [heq] at hdb
        injection hdb with hdb
        subst hdb
        simp [hre, List.lookup]
    | succ j' =>
      simp only [List.get?] at hq
      have hdb' : db ((i+1) + j') = Except.ok res := by
        rw [show (i+1) + j' = i + (j'+1) by omega]
        exact hdb
      have IH := ih (i+1) j' qa res hq hdb' hre
      have hkey : ((i + (j'+1) : Nat) == i) = false := by
        have : (i + (j'+1)) ≠ i := by omega
        exact beq_eq_false_iff_ne.mpr this
      have hidx : (i+1) + j' = i + (j'+1) := by omega
      rw [hidx] at IH
      simp only [runItems]
      split
      next e heq => exact IH
      next res0 heq =>
        by_cases hre0 : rowsEmpty res0
        · simp only [hre0, if_true]
          exact IH
        · simp only [Bool.not_eq_true] at hre0
          simp only [hre0, Bool.false_eq_true, if_false, List.singleton_append,
            List.lookup, hkey]
          exact IH

theorem substParams_bool_true (qrs : List (String × List π)) (k : Nat) :
    substParams (JVal.bool true) qrs k
      = qrs.map (fun x => (x.1, (none : Option (List π)))) := by
  induction qrs generalizing k with
  | nil => rfl
  | cons x xs ih => simp [substParams, jIndex, ih]

/-- Concrete item oracle for the batch scenario: item 1 succeeds with zero
rows, every other item succeeds with one row. -/
def exDb : ItemDB Nat := fun i =>
  if i = 1 then Except.ok ⟨some "SELECT", some []⟩
  else Except.ok ⟨some "SELECT", some [7]⟩

/-- Three submitted batch queries for the scenario. -/
def exQrs : List (String × List Nat) := [("q1", []), ("q2", []), ("q3", [])]

/-- The report the batch scenario resolves with. -/
def exRep : BatchReport Nat Nat :=
  ⟨2, 3, [], [(1, ("q2", some []))], [(1, noRowsErr)], none, 0, true⟩

/-- C2 is false as stated on the code: in the batch of 3 queries where
query number 2 succeeds with zero rows, the resolved report has an entry in
errorByIndex and no fatalError, yet overallSuccess is true, because the
zero-row handler records the error without clearing the success flag
(src/index.ts lines 113-115 never touch resp.success). -/
theorem C2_counterexample :
    (multiquery exDb false exQrs ([] : List (JVal Nat)) 0 none).1
      = MSettle.resolved exRep ∧
    exRep.success = true ∧
    exRep.error_list ≠ [] ∧
    exRep.fatal_error = none ∧
    exRep.completed = 2 ∧
    exRep.failed_query_list.lookup 1 = some ("q2", some []) := by
  refine ⟨by decide, rfl, by decide, rfl, rfl, by decide⟩

/-- C2 (amended): for every settled BatchReport, overallSuccess is true if
and only if no item execution threw an error and fatalError is absent; a
zero-row item is recorded under failureByIndex and errorByIndex but does
not clear overallSuccess, so the scenario of 3 queries where query number 2
succeeds with zero rows yields completedCount 2, failureByIndex containing
index 1, and overallSuccess true. -/
theorem C2_overall_success_iff_no_throw_and_no_fatal (db : ItemDB ρ) (log : Bool)
    (qrs : List (String × List π)) (args : List (JVal π)) (elapsed : Nat)
    (orchFault : Option Err) (rep : BatchReport ρ π)
    (h : (multiquery db log qrs args elapsed orchFault).1 = MSettle.resolved rep) :
    rep.success = true ↔
      (itemsNoThrow db (effectiveQueryArgs qrs (args.head?.getD JVal.undefined)) 0 = true ∧
       orchFault = none) := by
  cases orchFault with
  | none =>
    simp only [multiquery, MSettle.resolved.injEq] at h
    subst h
    simp [runItems_success_eq]
  | some e =>
    simp only [multiquery, MSettle.resolved.injEq] at h
    subst h
    simp

/-- C2 witness: the amended characterization evaluated on the concrete
zero-row scenario. -/
theorem C2_witness :
    exRep.success = true ↔
      (itemsNoThrow exDb
        (effectiveQueryArgs exQrs ((([] : List (JVal Nat)).head?).getD JVal.undefined)) 0 = true ∧
       (none : Option Err) = none) :=
  C2_overall_success_iff_no_throw_and_no_fatal exDb false exQrs [] 0 none exRep (by decide)

/-- C3: for every settled BatchReport, completedCount plus the number of
entries in failureByIndex equals totalCount, the number of queries
submitted, regardless of which items succeed, return zero rows, or throw;
the failure keys are pairwise distinct, so the entry count of the mapping
is the length of the association list. -/
theorem C3_completed_plus_failed_eq_total (db : ItemDB ρ) (log : Bool)
    (qrs : List (String × List π)) (args : List (JVal π)) (elapsed : Nat)
    (orchFault : Option Err) (rep : BatchReport ρ π)
    (h : (multiquery db log qrs args elapsed orchFault).1 = MSettle.resolved rep) :
    rep.completed + rep.failed_query_list.length = rep.completed_of ∧
    (rep.failed_query_list.map Prod.fst).Nodup := by
  have hcount := runItems_count db (truthy (args.getLast?.getD JVal.undefined)) log
    (effectiveQueryArgs qrs (args.head?.getD JVal.undefined)) 0
  have hlen := effectiveQueryArgs_length qrs (args.head?.getD JVal.undefined)
  have hnodup := runItems_failed_keys_nodup db (truthy (args.getLast?.getD JVal.undefined)) log
    (effectiveQueryArgs qrs (args.head?.getD JVal.undefined)) 0
  cases orchFault with
  | none =>
    simp only [multiquery, MSettle.resolved.injEq] at h
    subst h
    exact ⟨by rw [hcount, hlen], hnodup⟩
  | some e =>
    simp only [multiquery, MSettle.resolved.injEq] at h
    subst h
    exact ⟨by rw [hcount, hlen], hnodup⟩

/-- C3 witness: the invariant evaluated on the concrete zero-row scenario,
where one of three items fails. -/
theorem C3_witness :
    exRep.completed + exRep.failed_query_list.length = exRep.completed_of ∧
    (exRep.failed_query_list.map Prod.fst).Nodup :=
  C3_completed_plus_failed_eq_total exDb false exQrs [] 0 none exRep (by decide)

/-- C5: the batch call never rejects; for every input, including one where
the orchestration epilogue itself throws, the promise resolves with a
BatchReport whose fatalError field carries exactly the orchestration
error. -/
theorem C5_batch_never_rejects (db : ItemDB ρ) (log : Bool)
    (qrs : List (String × List π)) (args : List (JVal π)) (elapsed : Nat)
    (orchFault : Option Err) :
    ∃ rep, (multiquery db log qrs args elapsed orchFault).1 = MSettle.resolved rep ∧
      rep.fatal_error = orchFault := by
  cases orchFault with
  | none => exact ⟨_, rfl, rfl⟩
  | some e => exact ⟨_, rfl, rfl⟩

/-- C7: a batch item that executes without a database error but returns
zero rows is recorded as a per-item failure: its index maps to the
submitted query in failureByIndex and to the query-returned-no-rows error
in errorByIndex, and completedCount, which counts exactly the items that
executed without error and produced rows, is not incremented for it. -/
theorem C7_zero_rows_is_per_item_failure (db : ItemDB ρ) (log : Bool)
    (qrs : List (String × List π)) (args : List (JVal π)) (elapsed : Nat)
    (orchFault : Option Err) (i : Nat) (qa : String × Option (List π)) (res : QRes ρ)
    (rep : BatchReport ρ π)
    (hq : (effectiveQueryArgs qrs (args.head?.getD JVal.undefined)).get? i = some qa)
    (hdb : db i = Except.ok res)
    (hre : rowsEmpty res = true)
    (h : (multiquery db log qrs args elapsed orchFault).1 = MSettle.resolved rep) :
    rep.failed_query_list.lookup i = some qa ∧
    rep.error_list.lookup i = some noRowsErr ∧
    rep.completed = completedCount db (effectiveQueryArgs qrs (args.head?.getD JVal.undefined)) 0 ∧
    itemCompleted db i = false := by
  have hdb0 : db (0 + i) = Except.ok res := by rw [Nat.zero_add]; exact hdb
  have hlook := runItems_lookup_zeroRows db (truthy (args.getLast?.getD JVal.undefined)) log
    (effectiveQueryArgs qrs (args.head?.getD JVal.undefined)) 0 i qa res hq hdb0 hre
  rw [Nat.zero_add] at hlook
  have hcomp := runItems_completed_eq db (truthy (args.getLast?.getD JVal.undefined)) log
    (effectiveQueryArgs qrs (args.head?.getD JVal.undefined)) 0
  have hic : itemCompleted db i = false := by
    simp [itemCompleted, hdb, hre]
  cases orchFault with
  | none =>
    simp only [multiquery, MSettle.resolved.injEq] at h
    subst h
    exact ⟨hlook.1, hlook.2, hcomp, hic⟩
  | some e =>
    simp only [multiquery, MSettle.resolved.injEq] at h
    subst h
    exact ⟨hlook.1, hlook.2, hcomp, hic⟩

/-- C7 witness: the zero-row item of the concrete scenario is recorded as a
failure and not counted as completed. -/
theorem C7_witness :
    exRep.failed_query_list.lookup 1 = some ("q2", some []) ∧
    exRep.error_list.lookup 1 = some noRowsErr ∧
    exRep.completed = completedCount exDb
      (effectiveQueryArgs exQrs ((([] : List (JVal Nat)).head?).getD JVal.undefined)) 0 ∧
    itemCompleted exDb 1 = false :=
  C7_zero_rows_is_per_item_failure exDb false exQrs [] 0 none 1 ("q2", some [])
    ⟨some "SELECT", some []⟩ exRep (by decide) rfl rfl (by decide)

/-- C8: the logging flag does not interfere with observable results; a
single-query call and a batch call produce the same QueryResult and
BatchReport whether logging is enabled or disabled, and with logging
disabled no console output is produced. -/
theorem C8_log_noninterference (q : String) (oc : Except Err (QRes ρ))
    (db : ItemDB ρ) (qrs : List (String × List π)) (args : List (JVal π))
    (elapsed : Nat) (orchFault : Option Err) :
    (query true q oc).1 = (query false q oc).1 ∧
    (query false q oc).2 = [] ∧
    (multiquery db true qrs args elapsed orchFault).1
      = (multiquery db false qrs args elapsed orchFault).1 ∧
    (multiquery db false qrs args elapsed orchFault).2 = [] := by
  refine ⟨?_, ?_, ?_, ?_⟩
  · cases oc <;> rfl
  · cases oc <;> simp [query, send_log]
  · cases orchFault <;>
    · simp only [multiquery]
      rw [runItems_fst_log_irrel db (truthy (args.getLast?.getD JVal.undefined)) true false
        (effectiveQueryArgs qrs (args.head?.getD JVal.undefined)) 0]
  · cases orchFault <;>
    · simp only [multiquery]
      simp [runItems_console_nolog, send_log]

/-- Concrete oracle and inputs for the dual-use trailing argument: two
queries, both succeeding with one row. -/
def c10Db : ItemDB Nat := fun _ => Except.ok ⟨some "SELECT", some [9]⟩

/-- Two submitted queries whose own parameter lists will be overridden. -/
def c10Qrs : List (String × List Nat) := [("a", [0]), ("b", [0])]

/-- The params override passed as the single trailing argument. -/
def c10Xs : List (List Nat) := [[1], [2]]

/-- The report resolved by the dual-use batch call. -/
def c10Rep : BatchReport Nat Nat :=
  ⟨2, 2, [(0, [9]), (1, [9])], [], [], none, 0, true⟩

/-- C10: a single trailing argument after the query list is read both as
the per-query params override and as the retainSuccessRows flag: passing
the literal true replaces every submitted parameter list by undefined, and
passing a (always truthy) params array makes the runner retain successful
row sets in the report. -/
theorem C10_trailing_arg_dual_use (db : ItemDB ρ) (log : Bool)
    (qrs qrs' : List (String × List π)) (xs : List (List π)) (elapsed : Nat)
    (orchFault : Option Err) (j : Nat) (qa : String × Option (List π)) (res : QRes ρ)
    (rep : BatchReport ρ π)
    (hq : (effectiveQueryArgs qrs (JVal.params xs)).get? j = some qa)
    (hdb : db j = Except.ok res)
    (hre : rowsEmpty res = false)
    (h : (multiquery db log qrs [JVal.params xs] elapsed orchFault).1 = MSettle.resolved rep) :
    effectiveQueryArgs qrs' (JVal.bool true)
      = qrs'.map (fun x => (x.1, (none : Option (List π)))) ∧
    rep.success_query_list.lookup j = some (res.rows.getD []) := by
  constructor
  · unfold effectiveQueryArgs
    simp only [truthy, if_true]
    exact substParams_bool_true qrs' 0
  · have hdb0 : db (0 + j) = Except.ok res := by rw [Nat.zero_add]; exact hdb
    have hsave := runItems_lookup_saved db log
      (effectiveQueryArgs qrs (JVal.params xs)) 0 j qa res hq hdb0 hre
    rw [Nat.zero_add] at hsave
    cases orchFault with
    | none =>
      simp only [multiquery, MSettle.resolved.injEq] at h
      subst h
      simpa [truthy] using hsave
    | some e =>
      simp only [multiquery, MSettle.resolved.injEq] at h
      subst h
      simpa [truthy] using hsave

/-- C10 witness: the dual-use behavior evaluated on the concrete two-query
batch with a params array as the single trailing argument. -/
theorem C10_witness :
    effectiveQueryArgs exQrs (JVal.bool true)
      = exQrs.map (fun x => (x.1, (none : Option (List Nat)))) ∧
    c10Rep.success_query_list.lookup 0 = some ((⟨some "SELECT", some [9]⟩ : QRes Nat).rows.getD []) :=
  C10_trailing_arg_dual_use c10Db false c10Qrs exQrs c10Xs 0 none 0 ("a", some [1])
    ⟨some "SELECT", some [9]⟩ c10Rep (by decide) rfl rfl (by decide)

/-- Spec helper: every remaining step, starting at statement position k,
executes without an exception and returns a result whose command tag is
present. -/
def allStepsOk (db : TxDB ρ π) : List (String × Option (List π)) → Nat → Bool
  | [], _ => true
  | (q, b) :: rest, k =>
    (match db k (Stmt.query q b) with
     | .ok res => res.command.isSome
     | .error _ => false) && allStepsOk db rest (k+1)

/-- Spec helper: the value of the result variable r of the transaction loop
after running the given steps from statement position k, assuming every
step advances the position by exactly one (no rollback taken). -/
def txLast (db : TxDB ρ π) :
    List (String × Option (List π)) → Nat → Option (QRes ρ) → Option (QRes ρ)
  | [], _, r => r
  | (q, b) :: rest, k, r =>
    txLast db rest (k+1)
      (match db k (Stmt.query q b) with
       | .ok res => some res
       | .error _ => r)

theorem txLoop_all_ok (db : TxDB ρ π) (log : Bool) (nq : Nat)
    (qas : List (String × Option (List π))) :
    ∀ (k : Nat) (r : Option (QRes ρ)),
      allStepsOk db qas k = true → dbOk (db (k + qas.length) Stmt.commit) = true →
      (txLoop db log nq qas k none r).settle = TxSettle.resolved (txLast db qas k r) ∧
      Stmt.commit ∈ (txLoop db log nq qas k none r).trace := by
  induction qas with
  | nil =>
    intro k r hs hc
    rw [List.length_nil, Nat.add_zero] at hc
    simp only [txLoop]
    cases hcm : db k Stmt.commit with
    | error e => rw [hcm] at hc; simp [dbOk] at hc
    | ok res => simp [txLast]
  | cons qb rest ih =>
    obtain ⟨q, b⟩ := qb
    intro k r hs hc
    simp only [allStepsOk, Bool.and_eq_true] at hs
    obtain ⟨h1, h2⟩ := hs
    simp only [txLoop, txLast]
    split
    next e heq => rw [heq] at h1; simp at h1
    next res heq =>
      rw [heq] at h1
      have h1' : res.command.isSome = true := h1
      have hnone : res.command.isNone = false := by
        cases hcmd : res.command
        · rw [hcmd] at h1'; simp at h1'
        · simp [hcmd]
      have hc' : dbOk (db ((k+1) + rest.length) Stmt.commit) = true := by
        rw [show (k+1) + rest.length = k + (rest.length + 1) by omega]
        simpa using hc
      have IH := ih (k+1) (some res) h2 hc'
      simp only [hnone, Bool.false_eq_true, if_false]
      rw [heq]
      exact ⟨IH.1, List.mem_cons_of_mem _ IH.2⟩

theorem txLast_all_ok (db : TxDB ρ π) (ql : String) (bl : Option (List π)) :
    ∀ (l : List (String × Option (List π))) (k : Nat) (r : Option (QRes ρ)),
      allStepsOk db (l ++ [(ql, bl)]) k = true →
      ∃ resL, db (k + l.length) (Stmt.query ql bl) = Except.ok resL ∧
        resL.command.isSome = true ∧
        txLast db (l ++ [(ql, bl)]) k r = some resL := by
  intro l
  induction l with
  | nil =>
    intro k r hs
    simp only [List.nil_append, allStepsOk, Bool.and_eq_true] at hs
    obtain ⟨h1, _⟩ := hs
    cases hq : db k (Stmt.query ql bl) with
    | error e => rw [hq] at h1; simp at h1
    | ok res =>
      rw [hq] at h1
      refine ⟨res, by rw [List.length_nil, Nat.add_zero]; exact hq, h1, ?_⟩
      simp [txLast, hq]
  | cons x l' ih =>
    obtain ⟨q, b⟩ := x
    intro k r hs
    simp only [List.cons_append, allStepsOk, Bool.and_eq_true] at hs
    obtain ⟨h1, h2⟩ := hs
    cases hq : db k (Stmt.query q b) with
    | error e => rw [hq] at h1; simp at h1
    | ok res =>
      obtain ⟨resL, hL, hcmd, hlast⟩ := ih (k+1) (some res) h2
      refine ⟨resL, ?_, hcmd, ?_⟩
      · rw [show k + ((q, b) :: l').length = (k+1) + l'.length by simp; omega]
        exact hL
      · simp only [List.cons_append, txLast, hq]
        exact hlast

theorem txCatch_rollback_ok (db : TxDB ρ π) (k : Nat) (e : Err)
    (settled : Option (TxSettle ρ)) (log : Bool) (nq : Nat)
    (hrb : dbOk (db k Stmt.rollback) = true) :
    (txCatch db k e settled log nq).trace = [Stmt.rollback] ∧
    (txCatch db k e settled log nq).settle = settled.getD (TxSettle.rejected e) ∧
    (txCatch db k e settled log nq).caught = some e := by
  unfold txCatch
  cases hr : db k Stmt.rollback with
  | error e2 => rw [hr] at hrb; simp [dbOk] at hrb
  | ok res => simp

theorem txLoop_caught (db : TxDB ρ π) (log : Bool) (nq : Nat)
    (qas : List (String × Option (List π))) :
    ∀ (k : Nat) (settled : Option (TxSettle ρ)) (r : Option (QRes ρ)) (e : Err),
      (∀ m, dbOk (db m Stmt.rollback) = true) →
      (settled = none ∨ settled = some (TxSettle.rejected txFailedErr)) →
      (txLoop db log nq qas k settled r).caught = some e →
      Stmt.rollback ∈ (txLoop db log nq qas k settled r).trace ∧
      ((txLoop db log nq qas k settled r).settle = TxSettle.rejected e ∨
       (txLoop db log nq qas k settled r).settle = TxSettle.rejected txFailedErr) := by
  induction qas with
  | nil =>
    intro k settled r e hrb hset hcaught
    simp only [txLoop] at hcaught ⊢
    cases hcm : db k Stmt.commit with
    | error e2 =>
      rw [hcm] at hcaught
      obtain ⟨ht, hs2, hcg⟩ := txCatch_rollback_ok db (k+1) e2 settled log nq (hrb (k+1))
      simp only [hcg] at hcaught
      injection hcaught with hcaught
      subst hcaught
      refine ⟨?_, ?_⟩
      · simp [ht]
      · rw [hs2]
        rcases hset with rfl | rfl
        · exact Or.inl rfl
        · exact Or.inr rfl
    | ok res =>
      rw [hcm] at hcaught
      simp at hcaught
  | cons qb rest ih =>
    obtain ⟨q, b⟩ := qb
    intro k settled r e hrb hset hcaught
    simp only [txLoop] at hcaught ⊢
    cases hq : db k (Stmt.query q b) with
    | error e2 =>
      rw [hq] at hcaught
      obtain ⟨ht, hs2, hcg⟩ := txCatch_rollback_ok db (k+1) e2 settled log nq (hrb (k+1))
      simp only [hcg] at hcaught
      injection hcaught with hcaught
      subst hcaught
      refine ⟨?_, ?_⟩
      · simp [ht]
      · rw [hs2]
        rcases hset with rfl | rfl
        · exact Or.inl rfl
        · exact Or.inr rfl
    | ok res =>
      rw [hq] at hcaught
      by_cases hcd : res.command.isNone
      · simp only [hcd, if_true] at hcaught ⊢
        cases hr : db (k+1) Stmt.rollback with
        | error e2 =>
          have := hrb (k+1)
          rw [hr] at this
          simp [dbOk] at this
        | ok res2 =>
          rw [hr] at hcaught
          have hset' : settled.orElse (fun _ => some (TxSettle.rejected txFailedErr)) = none ∨
              settled.orElse (fun _ => some (TxSettle.rejected txFailedErr))
                = some (TxSettle.rejected txFailedErr) := by
            rcases hset with rfl | rfl
            · exact Or.inr rfl
            · exact Or.inr rfl
          have IH := ih (k+2)
            (settled.orElse fun _ => some (TxSettle.rejected txFailedErr)) (some res) e
            hrb hset' hcaught
          exact ⟨List.mem_cons_of_mem _ (List.mem_cons_self _ _), IH.2⟩
      · simp only [Bool.not_eq_true] at hcd
        simp only [hcd, Bool.false_eq_true, if_false] at hcaught ⊢
        have IH := ih (k+1) settled (some res) e hrb hset hcaught
        exact ⟨List.mem_cons_of_mem _ IH.1, IH.2⟩

/-- Concrete statement oracle in which the first step returns a result with
an absent command tag and every other statement succeeds. -/
def c1Db : TxDB Nat Nat := fun _ s =>
  match s with
  | Stmt.query "q0" _ => Except.ok ⟨none, some [1]⟩
  | Stmt.query _ _ => Except.ok ⟨some "SELECT", some [2]⟩
  | _ => Except.ok ⟨some "T", none⟩

/-- C1: the code violates the claim.  On the two-step transaction whose
first step returns a result with an absent command tag, the coordinator
logs the failure, issues ROLLBACK and rejects with the Transaction failed
error, but the loop does not stop: the remaining query q1 is still executed
after the rollback, and COMMIT is still issued afterwards, as the recorded
statement trace shows. -/
theorem C1_remaining_queries_still_execute :
    (transaction c1Db false ["q0", "q1"] [[], []]).trace
      = [Stmt.begin, Stmt.query "q0" (some []), Stmt.rollback,
         Stmt.query "q1" (some []), Stmt.commit] ∧
    (transaction c1Db false ["q0", "q1"] [[], []]).settle
      = TxSettle.rejected txFailedErr := by
  exact ⟨by decide, by decide⟩

/-- Concrete statement oracle in which BEGIN and ROLLBACK both throw. -/
def c4xDb : TxDB Nat Nat := fun _ s =>
  match s with
  | Stmt.begin => Except.error ⟨"e1"⟩
  | Stmt.rollback => Except.error ⟨"e2"⟩
  | _ => Except.ok ⟨some "T", none⟩

/-- C4 is false as stated: when BEGIN throws and the ROLLBACK issued by the
catch handler itself throws, the caught error never reaches the reject
call, so the call does not reject with the original error; it never
settles at all. -/
theorem C4_counterexample :
    (transaction c4xDb false ["q"] [[]]).caught = some ⟨"e1"⟩ ∧
    (transaction c4xDb false ["q"] [[]]).settle = TxSettle.hung ∧
    (transaction c4xDb false ["q"] [[]]).trace = [Stmt.begin, Stmt.rollback] := by
  exact ⟨by decide, by decide, by decide⟩

/-- C4 (amended): any exception thrown during transaction execution,
including from the BEGIN, COMMIT, or ROLLBACK statements themselves, is
caught and a best-effort ROLLBACK is issued; provided the ROLLBACK
statements do not themselves throw, the call rejects, with the original
error unless an earlier failed step already settled the call with the
Transaction failed rejection; if the ROLLBACK issued by the error handler
throws, the call never settles. -/
theorem C4_caught_error_rolls_back_and_rejects (db : TxDB ρ π) (log : Bool)
    (queries : List String) (bodies : List (List π)) (e : Err)
    (hrb : ∀ m, dbOk (db m Stmt.rollback) = true)
    (hcaught : (transaction db log queries bodies).caught = some e) :
    Stmt.rollback ∈ (transaction db log queries bodies).trace ∧
    ((transaction db log queries bodies).settle = TxSettle.rejected e ∨
     (transaction db log queries bodies).settle = TxSettle.rejected txFailedErr) := by
  unfold transaction at hcaught ⊢
  cases hbg : db 0 Stmt.begin with
  | error e0 =>
    rw [hbg] at hcaught
    obtain ⟨ht, hs2, hcg⟩ := txCatch_rollback_ok db 1 e0 none log queries.length (hrb 1)
    simp only [hcg] at hcaught
    injection hcaught with hcaught
    subst hcaught
    refine ⟨?_, Or.inl ?_⟩
    · simp [ht]
    · simpa using hs2
  | ok res0 =>
    rw [hbg] at hcaught
    have hcaught' : (txLoop db log queries.length (txQueryArgs bodies queries 0) 1 none
        none).caught = some e := hcaught
    have IH := txLoop_caught db log queries.length (txQueryArgs bodies queries 0) 1 none
      none e hrb (Or.inl rfl) hcaught'
    exact ⟨List.mem_cons_of_mem _ IH.1, IH.2⟩

/-- Concrete statement oracle in which only BEGIN throws. -/
def c4wDb : TxDB Nat Nat := fun _ s =>
  match s with
  | Stmt.begin => Except.error ⟨"boom"⟩
  | _ => Except.ok ⟨some "T", none⟩

/-- C4 witness: the amended statement evaluated on a run where BEGIN throws
and rollback works. -/
theorem C4_witness :
    Stmt.rollback ∈ (transaction c4wDb false ["q"] [[]]).trace ∧
    ((transaction c4wDb false ["q"] [[]]).settle = TxSettle.rejected ⟨"boom"⟩ ∨
     (transaction c4wDb false ["q"] [[]]).settle = TxSettle.rejected txFailedErr) :=
  C4_caught_error_rolls_back_and_rejects c4wDb false ["q"] [[]] ⟨"boom"⟩
    (fun m => rfl) (by decide)

/-- C6: when BEGIN succeeds, every step succeeds with a present command tag
and COMMIT succeeds, the coordinator issues COMMIT and the call resolves
with the QueryResult of the final query in the list. -/
theorem C6_all_success_commits_and_resolves_last (db : TxDB ρ π) (log : Bool)
    (queries : List String) (bodies : List (List π))
    (l : List (String × Option (List π))) (ql : String) (bl : Option (List π))
    (hsplit : txQueryArgs bodies queries 0 = l ++ [(ql, bl)])
    (hb : dbOk (db 0 Stmt.begin) = true)
    (hs : allStepsOk db (txQueryArgs bodies queries 0) 1 = true)
    (hc : dbOk (db (1 + (txQueryArgs bodies queries 0).length) Stmt.commit) = true) :
    Stmt.commit ∈ (transaction db log queries bodies).trace ∧
    ∃ resL, db (1 + l.length) (Stmt.query ql bl) = Except.ok resL ∧
      (transaction db log queries bodies).settle = TxSettle.resolved (some resL) := by
  unfold transaction
  cases hbg : db 0 Stmt.begin with
  | error e => rw [hbg] at hb; simp [dbOk] at hb
  | ok res0 =>
    have hT1 := txLoop_all_ok db log queries.length (txQueryArgs bodies queries 0) 1 none hs hc
    rw [hsplit] at hs
    obtain ⟨resL, hL, hcmd, hlast⟩ := txLast_all_ok db ql bl l 1 none hs
    refine ⟨List.mem_cons_of_mem _ hT1.2, resL, hL, ?_⟩
    have h1 := hT1.1
    rw [hsplit, hlast] at h1
    rw [hsplit]
    simpa using h1

/-- Concrete statement oracle for the all-success transaction. -/
def c6Db : TxDB Nat Nat := fun _ s =>
  match s with
  | Stmt.query "a" _ => Except.ok ⟨some "INSERT", some [1]⟩
  | Stmt.query _ _ => Except.ok ⟨some "INSERT", some [2]⟩
  | _ => Except.ok ⟨some "T", none⟩

/-- C6 witness: the all-success property evaluated on a concrete two-step
transaction. -/
theorem C6_witness :
    Stmt.commit ∈ (transaction c6Db false ["a", "b"] [[1], [2]]).trace ∧
    ∃ resL, c6Db (1 + 1) (Stmt.query "b" (some [2])) = Except.ok resL ∧
      (transaction c6Db false ["a", "b"] [[1], [2]]).settle
        = TxSettle.resolved (some resL) :=
  C6_all_success_commits_and_resolves_last c6Db false ["a", "b"] [[1], [2]]
    [("a", some [1])] "b" (some [2]) (by decide) (by decide) (by decide) (by decide)

/-- C9: on the empty list of queries the transaction call still issues
BEGIN and COMMIT against the connection and resolves with the undefined
value rather than a QueryResult. -/
theorem C9_empty_transaction_begins_commits_resolves_undefined (db : TxDB ρ π)
    (log : Bool) (bodies : List (List π))
    (hb : dbOk (db 0 Stmt.begin) = true)
    (hc : dbOk (db 1 Stmt.commit) = true) :
    (transaction db log ([] : List String) bodies).trace = [Stmt.begin, Stmt.commit] ∧
    (transaction db log ([] : List String) bodies).settle = TxSettle.resolved none := by
  unfold transaction
  cases hbg : db 0 Stmt.begin with
  | error e => rw [hbg] at hb; simp [dbOk] at hb
  | ok res0 =>
    simp only [txQueryArgs, txLoop]
    cases hcm : db 1 Stmt.commit with
    | error e => rw [hcm] at hc; simp [dbOk] at hc
    | ok res1 => simp

/-- Concrete statement oracle in which every statement succeeds. -/
def c9Db : TxDB Nat Nat := fun _ _ => Except.ok ⟨some "T", none⟩

/-- C9 witness: the empty transaction evaluated on a concrete oracle. -/
theorem C9_witness :
    (transaction c9Db false ([] : List String) ([] : List (List Nat))).trace
      = [Stmt.begin, Stmt.commit] ∧
    (transaction c9Db false ([] : List String) ([] : List (List Nat))).settle
      = TxSettle.resolved none :=
  C9_empty_transaction_begins_commits_resolves_undefined c9Db false [] rfl rfl

end PGNinja
